import Mathlib

/-!
Verification development for the checkflac FLAC-integrity checker.

The development shallowly embeds the program's data model (`src/types.rs`),
its verifier (`verify_flac_file` in `src/check.rs`) and its checkpointed
check engine (`check_flac_files` in `src/check.rs`) as executable Lean
definitions, and proves the specified properties about them.

Modelling conventions:
* Machine integers become `Nat`/`Int` with explicit `% 2^w` where the Rust
  code truncates (`as u8`, `as i16`, `to_le_bytes`).
* The claxon decoder is an external capability; a decoded file is modelled
  by `FlacStream` (stream info plus the sample iteration outcome), and a
  file that fails to open by `FlacInput.openFailure`.
* The MD5 digest is an external pure function `List Nat → List Nat`
  (byte stream in, 16-byte digest out); all theorems are parametric in it,
  so they capture exactly which byte stream the code hashes.
* Filesystem writes are modelled by a success oracle `saveOk : Nat → Bool`
  consulted once per `save_job_file` call, in call order; each call is
  recorded as a `Event.persist` trace entry carrying the snapshot written
  and whether the write succeeded.
* The rayon worker pool is modelled by an explicit processing order over
  the eligible indices: every schedule processes each eligible index once,
  in some order, with all JobSet mutation serialized by the single mutex,
  so a run is parametrized by a permutation `order` of the eligible list.
-/

namespace Checkflac

/-! ## Data model (src/types.rs) -/

/-- Status of a FLAC file check (`enum FlacStatus`). -/
inductive FlacStatus
  | toBeChecked
  | checking
  | ok
  | bad
  | error
deriving DecidableEq, Repr

/-- A single FLAC file to be checked (`struct FlacJob`). -/
structure FlacJob where
  path : String
  status : FlacStatus
  error_message : Option String
deriving DecidableEq, Repr

/-- Per-status tallies (`struct Statistics`). -/
structure Statistics where
  to_be_checked : Nat
  checking : Nat
  ok : Nat
  bad : Nat
  error : Nat
deriving DecidableEq, Repr

/-- Container for all FLAC jobs (`struct JobFile`). -/
structure JobFile where
  root_directory : String
  total_files : Nat
  statistics : Statistics
  jobs : List FlacJob
deriving DecidableEq, Repr

/-- One step of the counting loop in `Statistics::from_jobs`. -/
def Statistics.addStatus (s : Statistics) : FlacStatus → Statistics
  | FlacStatus.toBeChecked => { s with to_be_checked := s.to_be_checked + 1 }
  | FlacStatus.checking => { s with checking := s.checking + 1 }
  | FlacStatus.ok => { s with ok := s.ok + 1 }
  | FlacStatus.bad => { s with bad := s.bad + 1 }
  | FlacStatus.error => { s with error := s.error + 1 }

/-- `Statistics::from_jobs`: tally each status over the job list. -/
def Statistics.from_jobs (jobs : List FlacJob) : Statistics :=
  jobs.foldl (fun st j => st.addStatus j.status) ⟨0, 0, 0, 0, 0⟩

/-- Sum of the five per-status tallies. -/
def Statistics.total (s : Statistics) : Nat :=
  s.to_be_checked + s.checking + s.ok + s.bad + s.error

/-! ## Verifier (verify_flac_file in src/check.rs) -/

/-- Result type of one verification, mirroring Rust's `Result<bool>`:
`ok true` = valid, `ok false` = corrupted, `error` = check failed. -/
abbrev CheckResult := Except String Bool

instance exceptDecidableEq {ε α : Type} [DecidableEq ε] [DecidableEq α] :
    DecidableEq (Except ε α)
  | Except.ok a, Except.ok b =>
    if h : a = b then Decidable.isTrue (by rw [h])
    else Decidable.isFalse (by intro hc; cases hc; exact h rfl)
  | Except.ok _, Except.error _ => Decidable.isFalse (by intro hc; cases hc)
  | Except.error _, Except.ok _ => Decidable.isFalse (by intro hc; cases hc)
  | Except.error a, Except.error b =>
    if h : a = b then Decidable.isTrue (by rw [h])
    else Decidable.isFalse (by intro hc; cases hc; exact h rfl)

/-- A successfully opened FLAC file as the claxon decoder presents it:
the STREAMINFO md5 signature (16 bytes), the declared bits per sample,
the samples yielded by the `samples()` iterator before it either ends or
fails, and the decode error, if the iterator failed. -/
structure FlacStream where
  md5sum : List Nat
  bits_per_sample : Nat
  samples : List Int
  decode_error : Option String
deriving DecidableEq, Repr

/-- Input to the verifier: either `FlacReader::open` fails, or it yields a
stream. -/
inductive FlacInput
  | openFailure (msg : String)
  | opened (s : FlacStream)
deriving DecidableEq, Repr

/-- Little-endian byte encoding of the low `n` bytes of an `Int`, i.e. the
bytes of the two's-complement value `v mod 2^(8n)` (Rust `to_le_bytes` after
truncating casts). -/
def toLeBytes (n : Nat) (v : Int) : List Nat :=
  (List.range n).map fun i => ((v % (2 ^ (8 * n) : Nat)).toNat / 2 ^ (8 * i)) % 256

/-- Byte encoding of one decoded sample at a given bit depth, following the
`match bits_per_sample` arms in `verify_flac_file`; `none` is the `_` arm
(unsupported depth). 8-bit: `(sample + 128) as u8`; 16-bit:
`(sample as i16).to_le_bytes()`; 24-bit: `sample.to_le_bytes()[0..3]`;
32-bit: `sample.to_le_bytes()`. -/
def sampleBytes (bits : Nat) (sample : Int) : Option (List Nat) :=
  match bits with
  | 8 => some [((sample + 128) % (256 : Nat)).toNat]
  | 16 => some (toLeBytes 2 sample)
  | 24 => some ((toLeBytes 4 sample).take 3)
  | 32 => some (toLeBytes 4 sample)
  | _ => none

/-- The hashing loop of `verify_flac_file`: the byte stream fed to the MD5
hasher over all decoded samples, or the unsupported-depth error raised when
the first sample is reached at an unsupported depth. -/
def packSamples (bits : Nat) : List Int → Except String (List Nat)
  | [] => Except.ok []
  | s :: rest =>
    match sampleBytes bits s with
    | some bs =>
      match packSamples bits rest with
      | Except.ok tail => Except.ok (bs ++ tail)
      | Except.error e => Except.error e
    | none => Except.error ("Unsupported bits per sample: " ++ toString bits)

/-- `verify_flac_file` from src/check.rs, parametric in the MD5 digest
function: open the file, decode every sample, hash the samples in the
file's native byte encoding, and compare against the embedded md5sum
unless that signature is all zeros. -/
def verify_flac_file (md5 : List Nat → List Nat) : FlacInput → CheckResult
  | FlacInput.openFailure msg =>
    Except.error ("Failed to open FLAC file: " ++ msg)
  | FlacInput.opened s =>
    match s.decode_error with
    | some e => Except.error ("FLAC decoding error: " ++ e)
    | none =>
      match packSamples s.bits_per_sample s.samples with
      | Except.error e => Except.error e
      | Except.ok bytes =>
        let computed_md5 := md5 bytes
        let has_md5 := s.md5sum.any fun b => b != 0
        if has_md5 then
          if computed_md5 = s.md5sum then Except.ok true else Except.ok false
        else
          Except.ok true

/-- Byte-packing rules as the specification states them (spec §4.3): 8-bit
depth one unsigned byte `sample + 128`; 16-bit two little-endian signed
bytes; 24-bit the low 3 bytes of the signed value little-endian; 32-bit
four little-endian signed bytes (two's-complement little-endian encoding
throughout). Used to compare the code's hashing loop against the spec. -/
def specSampleBytes (bits : Nat) (sample : Int) : List Nat :=
  if bits = 8 then [((sample + 128) % (256 : Nat)).toNat]
  else if bits = 16 then toLeBytes 2 sample
  else if bits = 24 then (toLeBytes 4 sample).take 3
  else if bits = 32 then toLeBytes 4 sample
  else []

/-- Whole-stream packing per the specification: concatenate the per-sample
encodings in order. -/
def specPackedBytes (bits : Nat) (samples : List Int) : List Nat :=
  (samples.map (specSampleBytes bits)).flatten

/-- Executable substring test on character lists, used to state claims
about detail messages containing a given fragment. -/
def charsStartWith : List Char → List Char → Bool
  | [], _ => true
  | _ :: _, [] => false
  | a :: as, b :: bs => a = b && charsStartWith as bs

/-- Whether `needle` occurs contiguously inside `hay`. -/
def occursIn (needle : List Char) : List Char → Bool
  | [] => charsStartWith needle []
  | c :: rest => charsStartWith needle (c :: rest) || occursIn needle rest

example : occursIn "mismatch".toList "a checksum mismatch here".toList = true := by decide

example : occursIn "mismatch".toList "FLAC verification failed".toList = false := by decide

example :
    verify_flac_file (fun _ => [1]) (FlacInput.opened ⟨List.replicate 16 0, 12, [0], none⟩) =
      Except.error "Unsupported bits per sample: 12" := by decide

example :
    verify_flac_file (fun _ => [1]) (FlacInput.opened ⟨List.replicate 16 0, 16, [-1, 2], none⟩) =
      Except.ok true := by decide

example : packSamples 16 [-1, 2] = Except.ok [255, 255, 2, 0] := by decide

example : packSamples 24 [-2] = Except.ok [254, 255, 255] := by decide

example : packSamples 8 [-128, 127] = Except.ok [0, 255] := by decide

example : packSamples 32 [65536] = Except.ok [0, 0, 1, 0] := by decide

/-! ## Check engine (check_flac_files in src/check.rs) -/

/-- `job.status` is one of the statuses re-queued at run start, per the
`matches!(job.status, ToBeChecked | Checking | Error)` filter. -/
def eligible (s : FlacStatus) : Bool :=
  match s with
  | FlacStatus.toBeChecked => true
  | FlacStatus.checking => true
  | FlacStatus.error => true
  | FlacStatus.ok => false
  | FlacStatus.bad => false

/-- The `files_to_check` index list: indices of jobs whose status passes the
eligibility filter, in job order (models
`jobs.iter().enumerate().filter(..).map(idx).collect()`). -/
def files_to_check (jobs : List FlacJob) : List Nat :=
  (List.range jobs.length).filter fun i =>
    match jobs[i]? with
    | some job => eligible job.status
    | none => false

/-- Replace the job at an index by `f` of it; out-of-range indices leave the
list unchanged (in the Rust code indices are always in range). -/
def modifyJob (f : FlacJob → FlacJob) : List FlacJob → Nat → List FlacJob
  | [], _ => []
  | j :: rest, 0 => f j :: rest
  | j :: rest, n + 1 => j :: modifyJob f rest n

/-- The path stored at an index (`jf.jobs[idx].path.clone()`; in the Rust
code the index is always in range, so the default never arises). -/
def pathAt (jobs : List FlacJob) (idx : Nat) : String :=
  (jobs[idx]?.map FlacJob.path).getD ""

/-- Step 1 of processing a job: `status = Checking`, `error_message = None`. -/
def markChecking (job : FlacJob) : FlacJob :=
  { job with status := FlacStatus.checking, error_message := none }

/-- Step 3 of processing a job: write the verifier outcome back into the
job, per the `match &check_result` arms. -/
def applyResult (r : CheckResult) (job : FlacJob) : FlacJob :=
  match r with
  | Except.ok true =>
    { job with status := FlacStatus.ok, error_message := none }
  | Except.ok false =>
    { job with status := FlacStatus.bad,
               error_message := some "FLAC verification failed" }
  | Except.error e =>
    { job with status := FlacStatus.error, error_message := some e }

/-- Net effect of one worker iteration on the processed job. -/
def terminalJob (outcome : String → CheckResult) (job : FlacJob) : FlacJob :=
  applyResult (outcome job.path) (markChecking job)

/-- Observable events of a run: each `save_job_file` call (with the
snapshot it wrote and whether the write succeeded) and each verifier
invocation. -/
inductive Event
  | persist (jf : JobFile) (success : Bool)
  | verifyCall (idx : Nat) (path : String)
deriving DecidableEq, Repr

/-- Engine state threaded through the worker iterations: the shared
JobFile, the number of `save_job_file` calls made so far, the event trace,
and the collected per-job `check_result`s. -/
structure EngineState where
  jf : JobFile
  saveCount : Nat
  events : List Event
  results : List CheckResult

/-- One worker iteration of the parallel map in `check_flac_files`: mark
the job `Checking` and persist; read its path; run the verifier; write the
outcome back and persist again. `outcome` is the verifier as a function of
the path (the Verifier is pure, so a path determines the outcome);
`saveOk` says which `save_job_file` calls succeed. -/
def processJob (outcome : String → CheckResult) (saveOk : Nat → Bool)
    (st : EngineState) (idx : Nat) : EngineState :=
  let jf1 := { st.jf with jobs := modifyJob markChecking st.jf.jobs idx }
  let p := pathAt jf1.jobs idx
  let r := outcome p
  let jf2 := { jf1 with jobs := modifyJob (applyResult r) jf1.jobs idx }
  { jf := jf2,
    saveCount := st.saveCount + 2,
    events := st.events ++
      [Event.persist jf1 (saveOk st.saveCount),
       Event.verifyCall idx p,
       Event.persist jf2 (saveOk (st.saveCount + 1))],
    results := st.results ++ [r] }

/-- Process the eligible indices in the given schedule order. -/
def runJobs (outcome : String → CheckResult) (saveOk : Nat → Bool)
    (order : List Nat) (st : EngineState) : EngineState :=
  order.foldl (processJob outcome saveOk) st

/-- Result of a `check` run after the job file was loaded: the command's
`Result<()>`, the final in-memory JobFile, and the event trace. -/
structure RunOutput where
  result : Except String Unit
  final : JobFile
  events : List Event
deriving Repr

/-- Number of `Err` entries among the collected `check_result`s
(`results.iter().filter(|r| r.is_err()).count()`). -/
def errCount (results : List CheckResult) : Nat :=
  results.countP fun r =>
    match r with | Except.error _ => true | Except.ok _ => false

/-- Number of `Ok(false)` entries among the collected `check_result`s
(`results.iter().filter(|r| matches!(r, Ok(false))).count()`). -/
def badCount (results : List CheckResult) : Nat :=
  results.countP fun r =>
    match r with | Except.ok false => true | _ => false

/-- The JobFile written by the final save: statistics recomputed from the
jobs list (`jf.statistics = Statistics::from_jobs(&jf.jobs)`). -/
def finishedJobFile (st : EngineState) : JobFile :=
  { st.jf with statistics := Statistics.from_jobs st.jf.jobs }

/-- The error message of the `anyhow::bail!` at the end of the check. -/
def bailMessage (results : List CheckResult) : String :=
  "Check completed with " ++ toString (errCount results) ++ " errors and " ++
    toString (badCount results) ++ " bad files"

/-- The tail of `check_flac_files` once all workers have finished: the
statistics recompute, the final save (whose failure is fatal via `?`), and
the continue-on-error policy applied to the collected results. -/
def finishRun (continue_on_error : Bool) (st : EngineState) (finalSaveOk : Bool) :
    RunOutput :=
  if finalSaveOk = false then
    ⟨Except.error "Failed to write job file", finishedJobFile st,
     st.events ++ [Event.persist (finishedJobFile st) finalSaveOk]⟩
  else if !continue_on_error &&
      (decide (0 < errCount st.results) || decide (0 < badCount st.results)) then
    ⟨Except.error (bailMessage st.results), finishedJobFile st,
     st.events ++ [Event.persist (finishedJobFile st) finalSaveOk]⟩
  else
    ⟨Except.ok (), finishedJobFile st,
     st.events ++ [Event.persist (finishedJobFile st) finalSaveOk]⟩

/-- `check_flac_files` after the job file has been read and parsed: select
eligible indices; if none, return Ok immediately (no save, no statistics
recompute); otherwise process every eligible index (in schedule order
`order`) and finish with the statistics recompute, final save and
error policy. -/
def check_flac_files (outcome : String → CheckResult) (saveOk : Nat → Bool)
    (continue_on_error : Bool) (jf : JobFile) (order : List Nat) : RunOutput :=
  if (files_to_check jf.jobs).isEmpty then
    { result := Except.ok (), final := jf, events := [] }
  else
    finishRun continue_on_error (runJobs outcome saveOk order ⟨jf, 0, [], []⟩)
      (saveOk (runJobs outcome saveOk order ⟨jf, 0, [], []⟩).saveCount)

/-- The whole `check` command including the initial load:
`fs::read_to_string` + `serde_json::from_str` either produce a JobFile or
abort the command before any other work. -/
def check_command (load : Except String JobFile) (outcome : String → CheckResult)
    (saveOk : Nat → Bool) (continue_on_error : Bool) (order : List Nat) :
    Except String RunOutput :=
  match load with
  | Except.error e => Except.error e
  | Except.ok jf => Except.ok (check_flac_files outcome saveOk continue_on_error jf order)

/-! ## Basic lemmas about the embedding -/

theorem modifyJob_getElem? (f : FlacJob → FlacJob) (l : List FlacJob) (n i : Nat) :
    (modifyJob f l n)[i]? = if i = n then (l[i]?).map f else l[i]? := by
  induction l generalizing n i with
  | nil => simp [modifyJob]
  | cons j rest ih =>
    cases n with
    | zero =>
      cases i with
      | zero => simp [modifyJob]
      | succ i => simp [modifyJob]
    | succ n =>
      cases i with
      | zero => simp [modifyJob]
      | succ i => simpa [modifyJob] using ih n i

theorem modifyJob_length (f : FlacJob → FlacJob) (l : List FlacJob) (n : Nat) :
    (modifyJob f l n).length = l.length := by
  induction l generalizing n with
  | nil => simp [modifyJob]
  | cons j rest ih =>
    cases n with
    | zero => simp [modifyJob]
    | succ n => simpa [modifyJob] using ih n

theorem markChecking_path (job : FlacJob) : (markChecking job).path = job.path := rfl

theorem applyResult_path (r : CheckResult) (job : FlacJob) :
    (applyResult r job).path = job.path := by
  cases r with
  | ok b => cases b <;> rfl
  | error e => rfl

theorem terminalJob_path (outcome : String → CheckResult) (job : FlacJob) :
    (terminalJob outcome job).path = job.path := by
  rw [terminalJob, applyResult_path, markChecking_path]

theorem markChecking_congr (j j' : FlacJob) (h : j'.path = j.path) :
    markChecking j' = markChecking j := by
  show (⟨j'.path, FlacStatus.checking, none⟩ : FlacJob) = ⟨j.path, FlacStatus.checking, none⟩
  rw [h]

theorem terminalJob_congr (outcome : String → CheckResult) (j j' : FlacJob)
    (h : j'.path = j.path) :
    terminalJob outcome j' = terminalJob outcome j := by
  rw [terminalJob, terminalJob, markChecking_congr j j' h, h]

theorem terminalJob_idem (outcome : String → CheckResult) (job : FlacJob) :
    terminalJob outcome (terminalJob outcome job) = terminalJob outcome job :=
  terminalJob_congr outcome job (terminalJob outcome job) (terminalJob_path outcome job)

theorem pathAt_eq (jobs : List FlacJob) (i : Nat) (job : FlacJob) (h : jobs[i]? = some job) :
    pathAt jobs i = job.path := by
  rw [pathAt, h]
  rfl

theorem pathAt_modifyJob_markChecking (l : List FlacJob) (idx : Nat) :
    pathAt (modifyJob markChecking l idx) idx = pathAt l idx := by
  rw [pathAt, pathAt, modifyJob_getElem?, if_pos rfl]
  cases l[idx]? with
  | none => rfl
  | some j => simp [markChecking_path]

/-- Pointwise effect of one worker iteration on the job list. -/
theorem processJob_jobs_getElem? (outcome : String → CheckResult) (saveOk : Nat → Bool)
    (st : EngineState) (idx i : Nat) :
    (processJob outcome saveOk st idx).jf.jobs[i]? =
      if i = idx then (st.jf.jobs[i]?).map (terminalJob outcome) else st.jf.jobs[i]? := by
  show (modifyJob (applyResult _) (modifyJob markChecking st.jf.jobs idx) idx)[i]? = _
  rw [modifyJob_getElem?, modifyJob_getElem?]
  by_cases h : i = idx
  · subst h
    rw [if_pos rfl, if_pos rfl, if_pos rfl, pathAt_modifyJob_markChecking]
    cases hj : st.jf.jobs[i]? with
    | none => rfl
    | some job =>
      rw [pathAt_eq st.jf.jobs i job hj]
      rfl
  · rw [if_neg h, if_neg h, if_neg h]

theorem processJob_pathAt (outcome : String → CheckResult) (saveOk : Nat → Bool)
    (st : EngineState) (idx i : Nat) :
    pathAt (processJob outcome saveOk st idx).jf.jobs i = pathAt st.jf.jobs i := by
  rw [pathAt, pathAt, processJob_jobs_getElem?]
  by_cases h : i = idx
  · rw [if_pos h]
    cases st.jf.jobs[i]? with
    | none => rfl
    | some job => simp [terminalJob_path]
  · rw [if_neg h]

theorem processJob_saveCount (outcome : String → CheckResult) (saveOk : Nat → Bool)
    (st : EngineState) (idx : Nat) :
    (processJob outcome saveOk st idx).saveCount = st.saveCount + 2 := rfl

theorem processJob_results (outcome : String → CheckResult) (saveOk : Nat → Bool)
    (st : EngineState) (idx : Nat) :
    (processJob outcome saveOk st idx).results =
      st.results ++ [outcome (pathAt st.jf.jobs idx)] := by
  show st.results ++ [outcome (pathAt (modifyJob markChecking st.jf.jobs idx) idx)] = _
  rw [pathAt_modifyJob_markChecking]

theorem processJob_root (outcome : String → CheckResult) (saveOk : Nat → Bool)
    (st : EngineState) (idx : Nat) :
    (processJob outcome saveOk st idx).jf.root_directory = st.jf.root_directory := rfl

theorem processJob_total (outcome : String → CheckResult) (saveOk : Nat → Bool)
    (st : EngineState) (idx : Nat) :
    (processJob outcome saveOk st idx).jf.total_files = st.jf.total_files := rfl

theorem processJob_statistics (outcome : String → CheckResult) (saveOk : Nat → Bool)
    (st : EngineState) (idx : Nat) :
    (processJob outcome saveOk st idx).jf.statistics = st.jf.statistics := rfl

/-- Pointwise effect of a whole schedule on the job list: every index in
the schedule is driven to its terminal job, every other index is
untouched. -/
theorem runJobs_jobs_getElem? (outcome : String → CheckResult) (saveOk : Nat → Bool)
    (order : List Nat) (st : EngineState) (i : Nat) :
    (runJobs outcome saveOk order st).jf.jobs[i]? =
      if i ∈ order then (st.jf.jobs[i]?).map (terminalJob outcome) else st.jf.jobs[i]? := by
  induction order generalizing st with
  | nil => simp [runJobs]
  | cons idx rest ih =>
    have hstep : runJobs outcome saveOk (idx :: rest) st =
        runJobs outcome saveOk rest (processJob outcome saveOk st idx) := rfl
    rw [hstep, ih, processJob_jobs_getElem?]
    by_cases hmem : i ∈ rest
    · rw [if_pos hmem, if_pos (List.mem_cons_of_mem idx hmem)]
      by_cases h : i = idx
      · rw [if_pos h]
        cases st.jf.jobs[i]? with
        | none => rfl
        | some job => simp [terminalJob_idem]
      · rw [if_neg h]
    · rw [if_neg hmem]
      by_cases h : i = idx
      · rw [if_pos h, if_pos (by simp [h])]
      · rw [if_neg h, if_neg (by simp [h, hmem])]

theorem runJobs_pathAt (outcome : String → CheckResult) (saveOk : Nat → Bool)
    (order : List Nat) (st : EngineState) (i : Nat) :
    pathAt (runJobs outcome saveOk order st).jf.jobs i = pathAt st.jf.jobs i := by
  rw [pathAt, pathAt, runJobs_jobs_getElem?]
  by_cases h : i ∈ order
  · rw [if_pos h]
    cases st.jf.jobs[i]? with
    | none => rfl
    | some job => simp [terminalJob_path]
  · rw [if_neg h]

theorem runJobs_saveCount (outcome : String → CheckResult) (saveOk : Nat → Bool)
    (order : List Nat) (st : EngineState) :
    (runJobs outcome saveOk order st).saveCount = st.saveCount + 2 * order.length := by
  induction order generalizing st with
  | nil => simp [runJobs]
  | cons idx rest ih =>
    have hstep : runJobs outcome saveOk (idx :: rest) st =
        runJobs outcome saveOk rest (processJob outcome saveOk st idx) := rfl
    rw [hstep, ih, processJob_saveCount]
    simp [Nat.mul_succ]
    omega

theorem runJobs_results (outcome : String → CheckResult) (saveOk : Nat → Bool)
    (order : List Nat) (st : EngineState) :
    (runJobs outcome saveOk order st).results =
      st.results ++ order.map (fun i => outcome (pathAt st.jf.jobs i)) := by
  induction order generalizing st with
  | nil => simp [runJobs]
  | cons idx rest ih =>
    have hstep : runJobs outcome saveOk (idx :: rest) st =
        runJobs outcome saveOk rest (processJob outcome saveOk st idx) := rfl
    rw [hstep, ih, processJob_results]
    simp only [processJob_pathAt, List.map_cons, List.append_assoc,
      List.singleton_append]

theorem runJobs_root (outcome : String → CheckResult) (saveOk : Nat → Bool)
    (order : List Nat) (st : EngineState) :
    (runJobs outcome saveOk order st).jf.root_directory = st.jf.root_directory := by
  induction order generalizing st with
  | nil => rfl
  | cons idx rest ih =>
    exact (ih (processJob outcome saveOk st idx)).trans rfl

theorem runJobs_total (outcome : String → CheckResult) (saveOk : Nat → Bool)
    (order : List Nat) (st : EngineState) :
    (runJobs outcome saveOk order st).jf.total_files = st.jf.total_files := by
  induction order generalizing st with
  | nil => rfl
  | cons idx rest ih =>
    exact (ih (processJob outcome saveOk st idx)).trans rfl

/-- Index membership in the eligible list. -/
theorem mem_files_to_check (jobs : List FlacJob) (i : Nat) :
    i ∈ files_to_check jobs ↔ ∃ job, jobs[i]? = some job ∧ eligible job.status = true := by
  rw [files_to_check, List.mem_filter, List.mem_range]
  constructor
  · rintro ⟨hlt, hp⟩
    cases hj : jobs[i]? with
    | none => rw [hj] at hp; exact absurd hp (by simp)
    | some job =>
      rw [hj] at hp
      exact ⟨job, rfl, hp⟩
  · rintro ⟨job, hj, he⟩
    refine ⟨(List.getElem?_eq_some.mp hj).1, ?_⟩
    rw [hj]
    exact he

theorem finishRun_final (co : Bool) (st : EngineState) (b : Bool) :
    (finishRun co st b).final = finishedJobFile st := by
  rw [finishRun]
  split
  · rfl
  · split <;> rfl

theorem finishRun_events (co : Bool) (st : EngineState) (b : Bool) :
    (finishRun co st b).events = st.events ++ [Event.persist (finishedJobFile st) b] := by
  rw [finishRun]
  split
  · rfl
  · split <;> rfl

theorem finishRun_result (co : Bool) (st : EngineState) (b : Bool) :
    (finishRun co st b).result =
      if b = false then Except.error "Failed to write job file"
      else if !co && (decide (0 < errCount st.results) || decide (0 < badCount st.results))
      then Except.error (bailMessage st.results)
      else Except.ok () := by
  rw [finishRun]
  by_cases hb : b = false
  · rw [if_pos hb, if_pos hb]
  · rw [if_neg hb, if_neg hb]
    by_cases hc : (!co &&
        (decide (0 < errCount st.results) || decide (0 < badCount st.results))) = true
    · rw [if_pos hc, if_pos hc]
    · rw [if_neg hc, if_neg hc]

/-- With a nonempty eligible list, the run's final JobFile is the engine
state after all workers, with statistics recomputed. -/
theorem check_final_eq (outcome : String → CheckResult) (saveOk : Nat → Bool)
    (co : Bool) (jf : JobFile) (order : List Nat)
    (h : (files_to_check jf.jobs).isEmpty = false) :
    (check_flac_files outcome saveOk co jf order).final =
      finishedJobFile (runJobs outcome saveOk order ⟨jf, 0, [], []⟩) := by
  rw [check_flac_files, if_neg (by simp [h]), finishRun_final]

/-- Pointwise characterization of the final job list of a run. -/
theorem check_final_jobs_getElem? (outcome : String → CheckResult) (saveOk : Nat → Bool)
    (co : Bool) (jf : JobFile) (order : List Nat)
    (hperm : order.Perm (files_to_check jf.jobs)) (i : Nat) :
    (check_flac_files outcome saveOk co jf order).final.jobs[i]? =
      if i ∈ files_to_check jf.jobs then (jf.jobs[i]?).map (terminalJob outcome)
      else jf.jobs[i]? := by
  by_cases hemp : (files_to_check jf.jobs).isEmpty
  · have hnil : files_to_check jf.jobs = [] := by
      cases hl : files_to_check jf.jobs with
      | nil => rfl
      | cons a l => rw [hl] at hemp; exact absurd hemp (by simp)
    rw [check_flac_files, if_pos hemp, hnil]
    simp
  · rw [check_final_eq outcome saveOk co jf order (by simpa using hemp)]
    show (runJobs outcome saveOk order ⟨jf, 0, [], []⟩).jf.jobs[i]? = _
    rw [runJobs_jobs_getElem?]
    by_cases hi : i ∈ files_to_check jf.jobs
    · rw [if_pos (hperm.mem_iff.mpr hi), if_pos hi]
    · rw [if_neg (fun hc => hi (hperm.mem_iff.mp hc)), if_neg hi]

/-! ## Statistics lemmas -/

theorem from_jobs_go (init : Statistics) (jobs : List FlacJob) :
    jobs.foldl (fun st j => st.addStatus j.status) init =
      ⟨init.to_be_checked + jobs.countP (fun j => decide (j.status = FlacStatus.toBeChecked)),
       init.checking + jobs.countP (fun j => decide (j.status = FlacStatus.checking)),
       init.ok + jobs.countP (fun j => decide (j.status = FlacStatus.ok)),
       init.bad + jobs.countP (fun j => decide (j.status = FlacStatus.bad)),
       init.error + jobs.countP (fun j => decide (j.status = FlacStatus.error))⟩ := by
  induction jobs generalizing init with
  | nil => simp
  | cons j rest ih =>
    rw [List.foldl_cons, ih]
    cases hj : j.status <;>
      simp [Statistics.addStatus, hj, List.countP_cons, Statistics.mk.injEq] <;>
      omega

/-- `Statistics::from_jobs` computes exactly the per-status tallies. -/
theorem from_jobs_counts (jobs : List FlacJob) :
    Statistics.from_jobs jobs =
      ⟨jobs.countP (fun j => decide (j.status = FlacStatus.toBeChecked)),
       jobs.countP (fun j => decide (j.status = FlacStatus.checking)),
       jobs.countP (fun j => decide (j.status = FlacStatus.ok)),
       jobs.countP (fun j => decide (j.status = FlacStatus.bad)),
       jobs.countP (fun j => decide (j.status = FlacStatus.error))⟩ := by
  rw [Statistics.from_jobs, from_jobs_go]
  simp

theorem addStatus_total (s : Statistics) (st : FlacStatus) :
    (s.addStatus st).total = s.total + 1 := by
  cases st <;> simp [Statistics.addStatus, Statistics.total] <;> omega

theorem from_jobs_go_total (init : Statistics) (jobs : List FlacJob) :
    (jobs.foldl (fun st j => st.addStatus j.status) init).total = init.total + jobs.length := by
  induction jobs generalizing init with
  | nil => simp
  | cons j rest ih =>
    rw [List.foldl_cons, ih, addStatus_total, List.length_cons]
    omega

/-- The five tallies of `Statistics::from_jobs` always sum to the number
of jobs. -/
theorem from_jobs_total (jobs : List FlacJob) :
    (Statistics.from_jobs jobs).total = jobs.length := by
  rw [Statistics.from_jobs, from_jobs_go_total]
  simp [Statistics.total]

theorem runJobs_statistics (outcome : String → CheckResult) (saveOk : Nat → Bool)
    (order : List Nat) (st : EngineState) :
    (runJobs outcome saveOk order st).jf.statistics = st.jf.statistics := by
  induction order generalizing st with
  | nil => rfl
  | cons idx rest ih =>
    exact (ih (processJob outcome saveOk st idx)).trans rfl

theorem JobFile.eq_of_fields {a b : JobFile} (h1 : a.root_directory = b.root_directory)
    (h2 : a.total_files = b.total_files) (h3 : a.statistics = b.statistics)
    (h4 : a.jobs = b.jobs) : a = b := by
  cases a
  cases b
  cases h1
  cases h2
  cases h3
  cases h4
  rfl

/-- The whole job record written back for a processed job, by verifier
outcome. -/
theorem terminalJob_eq (outcome : String → CheckResult) (job : FlacJob) :
    terminalJob outcome job =
      match outcome job.path with
      | Except.ok true => ⟨job.path, FlacStatus.ok, none⟩
      | Except.ok false => ⟨job.path, FlacStatus.bad, some "FLAC verification failed"⟩
      | Except.error e => ⟨job.path, FlacStatus.error, some e⟩ := by
  cases h : outcome job.path with
  | ok b => cases b <;> simp [terminalJob, applyResult, markChecking, h]
  | error e => simp [terminalJob, applyResult, markChecking, h]

/-! Sanity checks of the engine model on the spec's three-job end-to-end
scenario (§8). -/

example :
    (check_flac_files
      (fun p => if p = "a" then Except.ok true
                else if p = "b" then Except.ok false
                else Except.error "boom")
      (fun _ => true) false
      ⟨"/r", 3, ⟨3, 0, 0, 0, 0⟩,
        [⟨"a", FlacStatus.toBeChecked, none⟩, ⟨"b", FlacStatus.toBeChecked, none⟩,
         ⟨"c", FlacStatus.toBeChecked, none⟩]⟩
      [0, 1, 2]).final =
    ⟨"/r", 3, ⟨0, 0, 1, 1, 1⟩,
      [⟨"a", FlacStatus.ok, none⟩,
       ⟨"b", FlacStatus.bad, some "FLAC verification failed"⟩,
       ⟨"c", FlacStatus.error, some "boom"⟩]⟩ := by decide

example :
    (check_flac_files
      (fun p => if p = "a" then Except.ok true
                else if p = "b" then Except.ok false
                else Except.error "boom")
      (fun _ => true) false
      ⟨"/r", 3, ⟨3, 0, 0, 0, 0⟩,
        [⟨"a", FlacStatus.toBeChecked, none⟩, ⟨"b", FlacStatus.toBeChecked, none⟩,
         ⟨"c", FlacStatus.toBeChecked, none⟩]⟩
      [0, 1, 2]).result =
    Except.error "Check completed with 1 errors and 1 bad files" := by decide

/-! ## Claim theorems -/

/-- C1: at the start of a check run exactly the jobs whose status is
ToBeChecked (Pending), Checking (InProgress) or Error (Failed) are in the
re-queued eligible list; Ok (Verified) and Bad (Corrupt) jobs are skipped
and left untouched by the whole run; and every eligible job — in
particular one left Checking by an interrupted run — is re-verified: its
final record is the verifier outcome for its path. -/
theorem requeued_jobs_exactly_unfinished (outcome : String → CheckResult)
    (saveOk : Nat → Bool) (co : Bool) (jf : JobFile) (order : List Nat)
    (hperm : order.Perm (files_to_check jf.jobs))
    (i : Nat) (job : FlacJob) (hget : jf.jobs[i]? = some job) :
    (i ∈ files_to_check jf.jobs ↔
      (job.status = FlacStatus.toBeChecked ∨ job.status = FlacStatus.checking ∨
        job.status = FlacStatus.error))
    ∧ ((job.status = FlacStatus.ok ∨ job.status = FlacStatus.bad) →
      (check_flac_files outcome saveOk co jf order).final.jobs[i]? = some job)
    ∧ ((job.status = FlacStatus.toBeChecked ∨ job.status = FlacStatus.checking ∨
        job.status = FlacStatus.error) →
      (check_flac_files outcome saveOk co jf order).final.jobs[i]? =
        some (terminalJob outcome job)) := by
  have hmem : i ∈ files_to_check jf.jobs ↔ eligible job.status = true := by
    rw [mem_files_to_check]
    constructor
    · rintro ⟨job', hj', he'⟩
      rw [hget] at hj'
      injection hj' with h
      rw [h]
      exact he'
    · intro he
      exact ⟨job, hget, he⟩
  have helig : eligible job.status = true ↔
      (job.status = FlacStatus.toBeChecked ∨ job.status = FlacStatus.checking ∨
        job.status = FlacStatus.error) := by
    cases job.status <;> simp [eligible]
  refine ⟨hmem.trans helig, ?_, ?_⟩
  · intro hok
    rw [check_final_jobs_getElem? outcome saveOk co jf order hperm i, if_neg, hget]
    intro hc
    rcases (hmem.trans helig).mp hc with h | h | h <;>
      rcases hok with h2 | h2 <;> rw [h2] at h <;> cases h
  · intro helig2
    rw [check_final_jobs_getElem? outcome saveOk co jf order hperm i,
      if_pos (hmem.mpr (helig.mpr helig2)), hget]
    rfl

/-- A JobSet left with one job Checking (a simulated crash) and one job
Bad, used to witness the resume behavior. -/
def resumeJobSet : JobFile :=
  ⟨"/music", 2, ⟨0, 1, 0, 1, 0⟩,
   [⟨"x.flac", FlacStatus.checking, none⟩,
    ⟨"y.flac", FlacStatus.bad, some "FLAC verification failed"⟩]⟩

theorem requeued_jobs_exactly_unfinished_witness :
    (([0] : List Nat).Perm (files_to_check resumeJobSet.jobs)
      ∧ resumeJobSet.jobs[0]? = some ⟨"x.flac", FlacStatus.checking, none⟩)
    ∧ ((0 ∈ files_to_check resumeJobSet.jobs ↔
      ((⟨"x.flac", FlacStatus.checking, none⟩ : FlacJob).status = FlacStatus.toBeChecked ∨
        (⟨"x.flac", FlacStatus.checking, none⟩ : FlacJob).status = FlacStatus.checking ∨
        (⟨"x.flac", FlacStatus.checking, none⟩ : FlacJob).status = FlacStatus.error))
    ∧ (((⟨"x.flac", FlacStatus.checking, none⟩ : FlacJob).status = FlacStatus.ok ∨
        (⟨"x.flac", FlacStatus.checking, none⟩ : FlacJob).status = FlacStatus.bad) →
      (check_flac_files (fun _ => Except.ok true) (fun _ => true) false resumeJobSet
        [0]).final.jobs[0]? = some ⟨"x.flac", FlacStatus.checking, none⟩)
    ∧ (((⟨"x.flac", FlacStatus.checking, none⟩ : FlacJob).status = FlacStatus.toBeChecked ∨
        (⟨"x.flac", FlacStatus.checking, none⟩ : FlacJob).status = FlacStatus.checking ∨
        (⟨"x.flac", FlacStatus.checking, none⟩ : FlacJob).status = FlacStatus.error) →
      (check_flac_files (fun _ => Except.ok true) (fun _ => true) false resumeJobSet
        [0]).final.jobs[0]? =
        some (terminalJob (fun _ => Except.ok true) ⟨"x.flac", FlacStatus.checking, none⟩))) :=
  ⟨⟨by decide, by decide⟩,
   requeued_jobs_exactly_unfinished (fun _ => Except.ok true) (fun _ => true) false
     resumeJobSet [0] (by decide) 0 ⟨"x.flac", FlacStatus.checking, none⟩ (by decide)⟩

/-- C10: when no job is eligible (all are Ok or Bad), the check command
returns success immediately: statistics are not recomputed, nothing is
written (empty event trace), and the final state is the input unchanged —
so the exit is zero even when some jobs are Bad. -/
theorem no_eligible_jobs_returns_ok_untouched (outcome : String → CheckResult)
    (saveOk : Nat → Bool) (co : Bool) (jf : JobFile) (order : List Nat)
    (h : files_to_check jf.jobs = []) :
    check_flac_files outcome saveOk co jf order = ⟨Except.ok (), jf, []⟩ := by
  rw [check_flac_files, if_pos (by rw [h]; rfl)]

/-- A JobSet whose jobs are all finalized, one of them Bad. -/
def finishedJobSet : JobFile :=
  ⟨"/music", 2, ⟨0, 0, 1, 1, 0⟩,
   [⟨"g.flac", FlacStatus.ok, none⟩,
    ⟨"b.flac", FlacStatus.bad, some "FLAC verification failed"⟩]⟩

theorem no_eligible_jobs_returns_ok_untouched_witness :
    files_to_check finishedJobSet.jobs = []
    ∧ check_flac_files (fun _ => Except.error "io") (fun _ => false) false
        finishedJobSet [] = ⟨Except.ok (), finishedJobSet, []⟩ :=
  ⟨by decide,
   no_eligible_jobs_returns_ok_untouched (fun _ => Except.error "io") (fun _ => false)
     false finishedJobSet [] (by decide)⟩

/-- C9: any two worker schedules over the same initial JobSet — in
particular the single-worker schedule and any N-worker schedule — produce
the same final JobFile (same status-per-path mapping) and the same command
result; only the event traces (timing, intermediate checkpoints) can
differ. -/
theorem schedule_independent (outcome : String → CheckResult) (saveOk : Nat → Bool)
    (co : Bool) (jf : JobFile) (order1 order2 : List Nat)
    (h1 : order1.Perm (files_to_check jf.jobs))
    (h2 : order2.Perm (files_to_check jf.jobs)) :
    (check_flac_files outcome saveOk co jf order1).final =
      (check_flac_files outcome saveOk co jf order2).final
    ∧ (check_flac_files outcome saveOk co jf order1).result =
      (check_flac_files outcome saveOk co jf order2).result := by
  by_cases hemp : (files_to_check jf.jobs).isEmpty
  · rw [check_flac_files, check_flac_files, if_pos hemp, if_pos hemp]
    exact ⟨rfl, rfl⟩
  · have hne : (files_to_check jf.jobs).isEmpty = false := by
      cases hv : (files_to_check jf.jobs).isEmpty
      · rfl
      · exact absurd hv hemp
    have hjf : (runJobs outcome saveOk order1 ⟨jf, 0, [], []⟩).jf =
        (runJobs outcome saveOk order2 ⟨jf, 0, [], []⟩).jf := by
      apply JobFile.eq_of_fields
      · rw [runJobs_root, runJobs_root]
      · rw [runJobs_total, runJobs_total]
      · rw [runJobs_statistics, runJobs_statistics]
      · apply List.ext_getElem?
        intro i
        rw [runJobs_jobs_getElem?, runJobs_jobs_getElem?]
        by_cases hi : i ∈ files_to_check jf.jobs
        · rw [if_pos (h1.mem_iff.mpr hi), if_pos (h2.mem_iff.mpr hi)]
        · rw [if_neg (fun hc => hi (h1.mem_iff.mp hc)),
            if_neg (fun hc => hi (h2.mem_iff.mp hc))]
    have hresperm : (runJobs outcome saveOk order1 ⟨jf, 0, [], []⟩).results.Perm
        (runJobs outcome saveOk order2 ⟨jf, 0, [], []⟩).results := by
      rw [runJobs_results, runJobs_results]
      simp only [List.nil_append]
      exact (h1.trans h2.symm).map _
    have hsc : (runJobs outcome saveOk order1 ⟨jf, 0, [], []⟩).saveCount =
        (runJobs outcome saveOk order2 ⟨jf, 0, [], []⟩).saveCount := by
      rw [runJobs_saveCount, runJobs_saveCount, h1.length_eq, h2.length_eq]
    have herr : errCount (runJobs outcome saveOk order1 ⟨jf, 0, [], []⟩).results =
        errCount (runJobs outcome saveOk order2 ⟨jf, 0, [], []⟩).results :=
      hresperm.countP_eq _
    have hbad : badCount (runJobs outcome saveOk order1 ⟨jf, 0, [], []⟩).results =
        badCount (runJobs outcome saveOk order2 ⟨jf, 0, [], []⟩).results :=
      hresperm.countP_eq _
    constructor
    · rw [check_final_eq outcome saveOk co jf order1 hne,
        check_final_eq outcome saveOk co jf order2 hne, finishedJobFile,
        finishedJobFile, hjf]
    · rw [check_flac_files, check_flac_files, if_neg (by simp [hne]),
        if_neg (by simp [hne]), finishRun_result, finishRun_result,
        herr, hbad, hsc, bailMessage, bailMessage, herr, hbad]

/-- A two-job JobSet with both jobs pending, to witness that the two
schedules [0, 1] and [1, 0] agree. -/
def twoPendingJobSet : JobFile :=
  ⟨"/music", 2, ⟨2, 0, 0, 0, 0⟩,
   [⟨"x.flac", FlacStatus.toBeChecked, none⟩,
    ⟨"y.flac", FlacStatus.toBeChecked, none⟩]⟩

theorem schedule_independent_witness :
    (([0, 1] : List Nat).Perm (files_to_check twoPendingJobSet.jobs)
      ∧ ([1, 0] : List Nat).Perm (files_to_check twoPendingJobSet.jobs))
    ∧ ((check_flac_files (fun p => if p = "x.flac" then Except.ok true else Except.ok false)
          (fun _ => true) false twoPendingJobSet [0, 1]).final =
        (check_flac_files (fun p => if p = "x.flac" then Except.ok true else Except.ok false)
          (fun _ => true) false twoPendingJobSet [1, 0]).final
      ∧ (check_flac_files (fun p => if p = "x.flac" then Except.ok true else Except.ok false)
          (fun _ => true) false twoPendingJobSet [0, 1]).result =
        (check_flac_files (fun p => if p = "x.flac" then Except.ok true else Except.ok false)
          (fun _ => true) false twoPendingJobSet [1, 0]).result) :=
  ⟨⟨by decide, by decide⟩,
   schedule_independent (fun p => if p = "x.flac" then Except.ok true else Except.ok false)
     (fun _ => true) false twoPendingJobSet [0, 1] [1, 0] (by decide) (by decide)⟩

/-- Some collected result is an `Err` or an `Ok(false)` exactly when some
processed job ends the run in status Bad or Error. -/
theorem processed_bad_or_error_iff (outcome : String → CheckResult) (saveOk : Nat → Bool)
    (co : Bool) (jf : JobFile) (order : List Nat)
    (hperm : order.Perm (files_to_check jf.jobs)) :
    (0 < errCount (runJobs outcome saveOk order ⟨jf, 0, [], []⟩).results ∨
     0 < badCount (runJobs outcome saveOk order ⟨jf, 0, [], []⟩).results) ↔
    (∃ i ∈ order, ∃ job',
      (check_flac_files outcome saveOk co jf order).final.jobs[i]? = some job' ∧
      (job'.status = FlacStatus.bad ∨ job'.status = FlacStatus.error)) := by
  have hterm : ∀ i ∈ order, ∃ job, jf.jobs[i]? = some job ∧
      pathAt jf.jobs i = job.path ∧
      (check_flac_files outcome saveOk co jf order).final.jobs[i]? =
        some (terminalJob outcome job) := by
    intro i hi
    have hmem : i ∈ files_to_check jf.jobs := hperm.mem_iff.mp hi
    obtain ⟨job, hget, helig⟩ := (mem_files_to_check jf.jobs i).mp hmem
    refine ⟨job, hget, pathAt_eq jf.jobs i job hget, ?_⟩
    rw [check_final_jobs_getElem? outcome saveOk co jf order hperm i, if_pos hmem, hget]
    rfl
  rw [errCount, badCount, runJobs_results]
  simp only [List.nil_append]
  rw [List.countP_pos_iff, List.countP_pos_iff]
  constructor
  · rintro (⟨r, hr, hp⟩ | ⟨r, hr, hp⟩) <;>
    · obtain ⟨i, hi, hfi⟩ := List.mem_map.mp hr
      obtain ⟨job, hget, hpath, hfin⟩ := hterm i hi
      refine ⟨i, hi, terminalJob outcome job, hfin, ?_⟩
      rw [terminalJob_eq]
      rw [hpath] at hfi
      cases houtc : outcome job.path with
      | ok b =>
        cases b <;> rw [houtc] at hfi <;> subst hfi <;> simp_all
      | error e =>
        rw [houtc] at hfi
        subst hfi
        simp_all
  · rintro ⟨i, hi, job', hfin, hstat⟩
    obtain ⟨job, hget, hpath, hfin2⟩ := hterm i hi
    rw [hfin2] at hfin
    injection hfin with hfin
    cases houtc : outcome job.path with
    | ok b =>
      cases b with
      | true =>
        exfalso
        rw [← hfin, terminalJob_eq, houtc] at hstat
        rcases hstat with h | h <;> cases h
      | false =>
        right
        refine ⟨outcome (pathAt jf.jobs i), List.mem_map.mpr ⟨i, hi, rfl⟩, ?_⟩
        rw [hpath, houtc]
    | error e =>
      left
      refine ⟨outcome (pathAt jf.jobs i), List.mem_map.mpr ⟨i, hi, rfl⟩, ?_⟩
      rw [hpath, houtc]

/-- C7: per-file verification failures never abort a run — with all saves
succeeding, every eligible job still reaches a terminal status — and the
command result is an error exactly when continue-on-error is unset and at
least one processed job ended Bad (Corrupt) or Error (Failed). -/
theorem per_file_failures_never_abort (outcome : String → CheckResult) (co : Bool)
    (jf : JobFile) (order : List Nat)
    (hperm : order.Perm (files_to_check jf.jobs)) :
    (∀ (i : Nat) (job : FlacJob), jf.jobs[i]? = some job → eligible job.status = true →
      ∃ job' : FlacJob,
        (check_flac_files outcome (fun _ => true) co jf order).final.jobs[i]? =
          some job' ∧
        (job'.status = FlacStatus.ok ∨ job'.status = FlacStatus.bad ∨
          job'.status = FlacStatus.error))
    ∧ ((check_flac_files outcome (fun _ => true) co jf order).result ≠ Except.ok () ↔
        (co = false ∧ ∃ i ∈ order, ∃ job' : FlacJob,
          (check_flac_files outcome (fun _ => true) co jf order).final.jobs[i]? =
            some job' ∧
          (job'.status = FlacStatus.bad ∨ job'.status = FlacStatus.error))) := by
  constructor
  · intro i job hget helig
    have hmem : i ∈ files_to_check jf.jobs :=
      (mem_files_to_check jf.jobs i).mpr ⟨job, hget, helig⟩
    refine ⟨terminalJob outcome job, ?_, ?_⟩
    · rw [check_final_jobs_getElem? outcome (fun _ => true) co jf order hperm i,
        if_pos hmem, hget]
      rfl
    · rw [terminalJob_eq]
      cases houtc : outcome job.path with
      | ok b => cases b <;> simp
      | error e => simp
  · by_cases hemp : (files_to_check jf.jobs).isEmpty
    · have hnil : files_to_check jf.jobs = [] := by
        cases hl : files_to_check jf.jobs with
        | nil => rfl
        | cons a l => rw [hl] at hemp; exact absurd hemp (by simp)
      have hord : order = [] := List.Perm.eq_nil (by rw [← hnil]; exact hperm)
      rw [check_flac_files, if_pos hemp]
      subst hord
      simp
    · have hne : (files_to_check jf.jobs).isEmpty = false := by
        cases hv : (files_to_check jf.jobs).isEmpty
        · rfl
        · exact absurd hv hemp
      have hchar := processed_bad_or_error_iff outcome (fun _ => true) co jf order hperm
      have hres : (check_flac_files outcome (fun _ => true) co jf order).result =
          if !co && (decide (0 < errCount (runJobs outcome (fun _ => true) order
              ⟨jf, 0, [], []⟩).results) ||
            decide (0 < badCount (runJobs outcome (fun _ => true) order
              ⟨jf, 0, [], []⟩).results))
          then Except.error (bailMessage (runJobs outcome (fun _ => true) order
            ⟨jf, 0, [], []⟩).results)
          else Except.ok () := by
        rw [check_flac_files, if_neg (by simp [hne]), finishRun_result,
          if_neg (by simp)]
      rw [hres]
      by_cases hco : co = true
      · rw [hco]
        simp
      · rw [Bool.not_eq_true] at hco
        subst hco
        by_cases hc : (0 < errCount (runJobs outcome (fun _ => true) order
            ⟨jf, 0, [], []⟩).results ∨
          0 < badCount (runJobs outcome (fun _ => true) order ⟨jf, 0, [], []⟩).results)
        · rw [if_pos (by simpa using hc)]
          constructor
          · intro _
            exact ⟨rfl, hchar.mp hc⟩
          · intro _
            simp
        · rw [if_neg (by simpa using hc)]
          constructor
          · intro h
            exact absurd rfl h
          · rintro ⟨-, hex⟩
            exact (hc (hchar.mpr hex)).elim

/-- A three-job pending JobSet for the end-to-end scenario: one file that
verifies, one with a checksum mismatch, one with a decode error. -/
def threeJobSet : JobFile :=
  ⟨"/r", 3, ⟨3, 0, 0, 0, 0⟩,
   [⟨"a.flac", FlacStatus.toBeChecked, none⟩,
    ⟨"b.flac", FlacStatus.toBeChecked, none⟩,
    ⟨"c.flac", FlacStatus.toBeChecked, none⟩]⟩

/-- The verifier outcomes of the end-to-end scenario. -/
def threeOutcome : String → CheckResult := fun p =>
  if p = "a.flac" then Except.ok true
  else if p = "b.flac" then Except.ok false
  else Except.error "FLAC decoding error: stream error"

theorem per_file_failures_never_abort_witness :
    ([0, 1, 2] : List Nat).Perm (files_to_check threeJobSet.jobs)
    ∧ ((check_flac_files threeOutcome (fun _ => true) false threeJobSet
          [0, 1, 2]).result ≠ Except.ok () ↔
        ((false : Bool) = false ∧ ∃ i ∈ ([0, 1, 2] : List Nat), ∃ job',
          (check_flac_files threeOutcome (fun _ => true) false threeJobSet
            [0, 1, 2]).final.jobs[i]? = some job' ∧
          (job'.status = FlacStatus.bad ∨ job'.status = FlacStatus.error))) :=
  ⟨by decide,
   (per_file_failures_never_abort threeOutcome false threeJobSet [0, 1, 2] (by decide)).2⟩

theorem check_events_eq (outcome : String → CheckResult) (saveOk : Nat → Bool)
    (co : Bool) (jf : JobFile) (order : List Nat)
    (hne : (files_to_check jf.jobs).isEmpty = false) :
    (check_flac_files outcome saveOk co jf order).events =
      (runJobs outcome saveOk order ⟨jf, 0, [], []⟩).events ++
        [Event.persist (finishedJobFile (runJobs outcome saveOk order ⟨jf, 0, [], []⟩))
          (saveOk (runJobs outcome saveOk order ⟨jf, 0, [], []⟩).saveCount)] := by
  rw [check_flac_files, if_neg (by simp [hne]), finishRun_events]

/-- A one-job pending JobSet whose loaded statistics are consistent. -/
def onePendingJobSet : JobFile :=
  ⟨"/music", 1, ⟨1, 0, 0, 0, 0⟩, [⟨"a.flac", FlacStatus.toBeChecked, none⟩]⟩

/-- The first checkpoint persisted by a run over `onePendingJobSet`: the
job is marked Checking but the statistics block is still the stale loaded
one. -/
def staleCheckpoint : JobFile :=
  ⟨"/music", 1, ⟨1, 0, 0, 0, 0⟩, [⟨"a.flac", FlacStatus.checking, none⟩]⟩

/-- C5 counterexample: the very first JobSet persisted by a run carries
statistics that are not the recount of its jobs list — counts are not
recomputed after load or before intermediate persists. -/
theorem counts_recompute_before_persist_cex :
    (check_flac_files (fun _ => Except.ok true) (fun _ => true) false onePendingJobSet
      [0]).events[0]? = some (Event.persist staleCheckpoint true)
    ∧ staleCheckpoint.statistics ≠ Statistics.from_jobs staleCheckpoint.jobs := by
  refine ⟨by decide, by decide⟩

/-- C5 amended: counts are recomputed from the jobs list exactly once per
run, immediately before the final persist (not after load, not before the
per-transition checkpoints, which carry stale counts — see the
counterexample). The final persisted JobFile does satisfy the invariant:
its statistics are the recount of its jobs and the five tallies sum to
len(jobs); `total_files` is carried through unchanged rather than
recomputed. -/
theorem counts_recomputed_only_at_finish (outcome : String → CheckResult)
    (saveOk : Nat → Bool) (co : Bool) (jf : JobFile) (order : List Nat)
    (hne : (files_to_check jf.jobs).isEmpty = false) :
    (check_flac_files outcome saveOk co jf order).final.statistics =
      Statistics.from_jobs (check_flac_files outcome saveOk co jf order).final.jobs
    ∧ ((check_flac_files outcome saveOk co jf order).final.statistics).total =
      (check_flac_files outcome saveOk co jf order).final.jobs.length
    ∧ (check_flac_files outcome saveOk co jf order).final.total_files = jf.total_files
    ∧ (check_flac_files outcome saveOk co jf order).events.getLast? =
      some (Event.persist (check_flac_files outcome saveOk co jf order).final
        (saveOk (2 * order.length))) := by
  refine ⟨?_, ?_, ?_, ?_⟩
  · rw [check_final_eq outcome saveOk co jf order hne]
    rfl
  · rw [check_final_eq outcome saveOk co jf order hne]
    exact from_jobs_total _
  · rw [check_final_eq outcome saveOk co jf order hne]
    show (runJobs outcome saveOk order ⟨jf, 0, [], []⟩).jf.total_files = jf.total_files
    rw [runJobs_total]
  · rw [check_events_eq outcome saveOk co jf order hne,
      check_final_eq outcome saveOk co jf order hne, List.getLast?_concat,
      runJobs_saveCount]
    simp

theorem counts_recomputed_only_at_finish_witness :
    (files_to_check onePendingJobSet.jobs).isEmpty = false
    ∧ ((check_flac_files (fun _ => Except.ok true) (fun _ => true) false onePendingJobSet
        [0]).final.statistics =
      Statistics.from_jobs (check_flac_files (fun _ => Except.ok true) (fun _ => true)
        false onePendingJobSet [0]).final.jobs
    ∧ ((check_flac_files (fun _ => Except.ok true) (fun _ => true) false onePendingJobSet
        [0]).final.statistics).total =
      (check_flac_files (fun _ => Except.ok true) (fun _ => true) false onePendingJobSet
        [0]).final.jobs.length
    ∧ (check_flac_files (fun _ => Except.ok true) (fun _ => true) false onePendingJobSet
        [0]).final.total_files = onePendingJobSet.total_files
    ∧ (check_flac_files (fun _ => Except.ok true) (fun _ => true) false onePendingJobSet
        [0]).events.getLast? =
      some (Event.persist (check_flac_files (fun _ => Except.ok true) (fun _ => true)
        false onePendingJobSet [0]).final ((fun _ => true) (2 * ([0] : List Nat).length)))) :=
  ⟨by decide,
   counts_recomputed_only_at_finish (fun _ => Except.ok true) (fun _ => true) false
     onePendingJobSet [0] (by decide)⟩

/-! ## C6: the InProgress mark is persisted before the verifier runs -/

/-- Every verifier call in a trace is strictly preceded by a successful
persist of a snapshot in which the called job is Checking (InProgress)
with cleared detail and carries the very path being verified. -/
def persistedCheckingBefore (events : List Event) : Prop :=
  ∀ (k idx : Nat) (p : String), events[k]? = some (Event.verifyCall idx p) →
    ∃ (m : Nat) (jfm : JobFile) (job : FlacJob), m < k ∧
      events[m]? = some (Event.persist jfm true) ∧
      jfm.jobs[idx]? = some job ∧ job.status = FlacStatus.checking ∧
      job.error_message = none ∧ job.path = p

theorem processJob_jobs_length (outcome : String → CheckResult) (saveOk : Nat → Bool)
    (st : EngineState) (idx : Nat) :
    (processJob outcome saveOk st idx).jf.jobs.length = st.jf.jobs.length := by
  show (modifyJob _ (modifyJob markChecking st.jf.jobs idx) idx).length = _
  rw [modifyJob_length, modifyJob_length]

theorem pcb_append (events extra : List Event)
    (hextra : ∀ (k idx : Nat) (p : String),
      extra[k]? = some (Event.verifyCall idx p) → False)
    (h : persistedCheckingBefore events) :
    persistedCheckingBefore (events ++ extra) := by
  intro k i p hk
  rw [List.getElem?_append] at hk
  by_cases hlt : k < events.length
  · rw [if_pos hlt] at hk
    obtain ⟨m, jfm, job, hm, hmev, hrest⟩ := h k i p hk
    refine ⟨m, jfm, job, hm, ?_, hrest⟩
    rw [List.getElem?_append, if_pos (hm.trans hlt)]
    exact hmev
  · rw [if_neg hlt] at hk
    exact (hextra _ i p hk).elim

/-- The snapshot persisted by step 1 of a worker iteration: the job marked
Checking with cleared detail. -/
def checkingSnapshot (jf : JobFile) (idx : Nat) : JobFile :=
  { jf with jobs := modifyJob markChecking jf.jobs idx }

/-- The path the worker reads back for the verifier call. -/
def checkedPath (jf : JobFile) (idx : Nat) : String :=
  pathAt (checkingSnapshot jf idx).jobs idx

/-- The snapshot persisted by step 3 of a worker iteration: the verifier
outcome written back. -/
def outcomeSnapshot (outcome : String → CheckResult) (jf : JobFile) (idx : Nat) : JobFile :=
  { checkingSnapshot jf idx with jobs := modifyJob (applyResult (outcome (checkedPath jf idx))) (checkingSnapshot jf idx).jobs idx }

theorem processJob_events (outcome : String → CheckResult) (saveOk : Nat → Bool)
    (st : EngineState) (idx : Nat) :
    (processJob outcome saveOk st idx).events =
      st.events ++
        [Event.persist (checkingSnapshot st.jf idx) (saveOk st.saveCount),
         Event.verifyCall idx (checkedPath st.jf idx),
         Event.persist (outcomeSnapshot outcome st.jf idx) (saveOk (st.saveCount + 1))] := rfl

theorem processJob_preserves_pcb (outcome : String → CheckResult) (saveOk : Nat → Bool)
    (st : EngineState) (idx : Nat)
    (hsave : ∀ n, saveOk n = true)
    (hidx : idx < st.jf.jobs.length)
    (hst : persistedCheckingBefore st.events) :
    persistedCheckingBefore (processJob outcome saveOk st idx).events := by
  obtain ⟨job0, hjob0⟩ : ∃ job0, st.jf.jobs[idx]? = some job0 := by
    cases hj : st.jf.jobs[idx]? with
    | some j => exact ⟨j, rfl⟩
    | none =>
      rw [List.getElem?_eq_none_iff] at hj
      omega
  intro k i p hk
  rw [processJob_events, List.getElem?_append] at hk
  by_cases hlt : k < st.events.length
  · rw [if_pos hlt] at hk
    obtain ⟨m, jfm, job, hm, hmev, hrest⟩ := hst k i p hk
    refine ⟨m, jfm, job, hm, ?_, hrest⟩
    rw [processJob_events, List.getElem?_append, if_pos (hm.trans hlt)]
    exact hmev
  · rw [if_neg hlt] at hk
    have hk3 : k - st.events.length < 3 := by
      by_contra hge
      rw [List.getElem?_eq_none_iff.mpr (by simp; omega)] at hk
      cases hk
    have hkcase : k - st.events.length = 0 ∨ k - st.events.length = 1 ∨
        k - st.events.length = 2 := by omega
    rcases hkcase with hc | hc | hc <;> rw [hc] at hk
    · simp at hk
    · -- the verifier call itself: the persist right before it qualifies
      have hk' : Event.verifyCall idx (checkedPath st.jf idx) = Event.verifyCall i p := by
        injection hk
      injection hk' with hidx2 hp
      subst hidx2
      subst hp
      refine ⟨st.events.length, checkingSnapshot st.jf idx, markChecking job0,
        by omega, ?_, ?_, rfl, rfl, ?_⟩
      · rw [processJob_events, List.getElem?_append, if_neg (by omega),
          show st.events.length - st.events.length = 0 by omega, hsave st.saveCount]
        rfl
      · show (modifyJob markChecking st.jf.jobs idx)[idx]? = _
        rw [modifyJob_getElem?, if_pos rfl, hjob0]
        rfl
      · rw [markChecking_path, checkedPath]
        show job0.path = pathAt (modifyJob markChecking st.jf.jobs idx) idx
        rw [pathAt_modifyJob_markChecking, pathAt_eq st.jf.jobs idx job0 hjob0]
    · simp at hk

theorem runJobs_preserves_pcb (outcome : String → CheckResult) (saveOk : Nat → Bool)
    (order : List Nat) (st : EngineState)
    (hsave : ∀ n, saveOk n = true)
    (horder : ∀ j ∈ order, j < st.jf.jobs.length)
    (hst : persistedCheckingBefore st.events) :
    persistedCheckingBefore (runJobs outcome saveOk order st).events := by
  induction order generalizing st with
  | nil => exact hst
  | cons idx rest ih =>
    apply ih
    · intro j hj
      rw [processJob_jobs_length]
      exact horder j (List.mem_cons_of_mem idx hj)
    · exact processJob_preserves_pcb outcome saveOk st idx hsave
        (horder idx (List.mem_cons_self idx rest)) hst

/-- C6: in any run whose saves succeed, every verifier invocation is
strictly preceded in the trace by a successful persist of a snapshot in
which that job is already marked Checking (InProgress) with cleared
detail — the verifier call never precedes the persisted transition. -/
theorem inprogress_persisted_before_verify (outcome : String → CheckResult)
    (saveOk : Nat → Bool) (co : Bool) (jf : JobFile) (order : List Nat)
    (hperm : order.Perm (files_to_check jf.jobs))
    (hsave : ∀ n, saveOk n = true) :
    persistedCheckingBefore (check_flac_files outcome saveOk co jf order).events := by
  by_cases hemp : (files_to_check jf.jobs).isEmpty
  · rw [check_flac_files, if_pos hemp]
    intro k i p hk
    simp at hk
  · have hne : (files_to_check jf.jobs).isEmpty = false := by
      cases hv : (files_to_check jf.jobs).isEmpty
      · rfl
      · exact absurd hv hemp
    rw [check_events_eq outcome saveOk co jf order hne]
    apply pcb_append
    · intro k i p hk
      rcases k with _ | k <;> simp at hk
    · apply runJobs_preserves_pcb outcome saveOk order ⟨jf, 0, [], []⟩ hsave
      · intro j hj
        obtain ⟨job, hget, -⟩ :=
          (mem_files_to_check jf.jobs j).mp (hperm.mem_iff.mp hj)
        exact (List.getElem?_eq_some.mp hget).1
      · intro k i p hk
        simp at hk

theorem inprogress_persisted_before_verify_witness :
    (([0] : List Nat).Perm (files_to_check onePendingJobSet.jobs)
      ∧ ∀ n : Nat, (fun _ => true : Nat → Bool) n = true)
    ∧ persistedCheckingBefore
        (check_flac_files (fun _ => Except.ok true) (fun _ => true) false
          onePendingJobSet [0]).events :=
  ⟨⟨by decide, fun _ => rfl⟩,
   inprogress_persisted_before_verify (fun _ => Except.ok true) (fun _ => true) false
     onePendingJobSet [0] (by decide) (fun _ => rfl)⟩

/-! ## C8: which I/O failures are fatal -/

theorem processJob_jf_eq (outcome : String → CheckResult) (saveOk : Nat → Bool)
    (st : EngineState) (idx : Nat) :
    (processJob outcome saveOk st idx).jf = outcomeSnapshot outcome st.jf idx := rfl

theorem runJobs_jf_indep (outcome : String → CheckResult) (saveOk saveOk' : Nat → Bool)
    (order : List Nat) (st st' : EngineState) (h : st.jf = st'.jf) :
    (runJobs outcome saveOk order st).jf = (runJobs outcome saveOk' order st').jf := by
  induction order generalizing st st' with
  | nil => exact h
  | cons idx rest ih =>
    apply ih
    rw [processJob_jf_eq, processJob_jf_eq, h]

/-- C8 counterexample: a run on which the very first checkpoint write
fails still verifies the remaining jobs and succeeds overall — a failed
intermediate write does not abort the command. -/
theorem io_failure_aborts_cex :
    (check_flac_files (fun _ => Except.ok true) (fun n => decide (0 < n)) false
      twoPendingJobSet [0, 1]).events[0]? =
      some (Event.persist ⟨"/music", 2, ⟨2, 0, 0, 0, 0⟩,
        [⟨"x.flac", FlacStatus.checking, none⟩,
         ⟨"y.flac", FlacStatus.toBeChecked, none⟩]⟩ false)
    ∧ (check_flac_files (fun _ => Except.ok true) (fun n => decide (0 < n)) false
        twoPendingJobSet [0, 1]).events[4]? = some (Event.verifyCall 1 "y.flac")
    ∧ (check_flac_files (fun _ => Except.ok true) (fun n => decide (0 < n)) false
        twoPendingJobSet [0, 1]).result = Except.ok () := by
  refine ⟨by decide, by decide, by decide⟩

/-- C8 amended: an IOError on the initial read of the JobSet aborts the
command before any work, and an IOError on the final write makes the
command fail; but an IOError on an intermediate checkpoint write is
non-fatal — it is only warned about, and neither the final state nor the
command result depends on intermediate write outcomes (only the final
write, the `2·len(order)`-th save call, matters). -/
theorem io_failure_fatal_only_at_load_and_final_save
    (outcome : String → CheckResult) (saveOkA saveOkB saveOkC : Nat → Bool)
    (co : Bool) (jf : JobFile) (order : List Nat) (e : String)
    (hne : (files_to_check jf.jobs).isEmpty = false)
    (hagree : saveOkA (2 * order.length) = saveOkB (2 * order.length))
    (hCfail : saveOkC (2 * order.length) = false) :
    check_command (Except.error e) outcome saveOkA co order = Except.error e
    ∧ (check_flac_files outcome saveOkC co jf order).result =
        Except.error "Failed to write job file"
    ∧ (check_flac_files outcome saveOkA co jf order).result =
        (check_flac_files outcome saveOkB co jf order).result
    ∧ (check_flac_files outcome saveOkA co jf order).final =
        (check_flac_files outcome saveOkB co jf order).final := by
  have hjf : ∀ saveOk saveOk' : Nat → Bool,
      (runJobs outcome saveOk order ⟨jf, 0, [], []⟩).jf =
      (runJobs outcome saveOk' order ⟨jf, 0, [], []⟩).jf := fun s s' =>
    runJobs_jf_indep outcome s s' order ⟨jf, 0, [], []⟩ ⟨jf, 0, [], []⟩ rfl
  have hresults : ∀ saveOk saveOk' : Nat → Bool,
      (runJobs outcome saveOk order ⟨jf, 0, [], []⟩).results =
      (runJobs outcome saveOk' order ⟨jf, 0, [], []⟩).results := fun s s' => by
    rw [runJobs_results, runJobs_results]
  have hsc : ∀ saveOk : Nat → Bool,
      (runJobs outcome saveOk order ⟨jf, 0, [], []⟩).saveCount = 2 * order.length :=
    fun s => by rw [runJobs_saveCount]; simp
  refine ⟨rfl, ?_, ?_, ?_⟩
  · rw [check_flac_files, if_neg (by simp [hne]), finishRun_result, hsc,
      if_pos hCfail]
  · rw [check_flac_files, check_flac_files, if_neg (by simp [hne]),
      if_neg (by simp [hne]), finishRun_result, finishRun_result, hsc, hsc, hagree,
      hresults saveOkA saveOkB]
  · rw [check_final_eq outcome saveOkA co jf order hne,
      check_final_eq outcome saveOkB co jf order hne, finishedJobFile,
      finishedJobFile, hjf saveOkA saveOkB]

theorem io_failure_fatal_witness :
    ((files_to_check twoPendingJobSet.jobs).isEmpty = false
      ∧ (fun n => decide (0 < n)) (2 * ([0, 1] : List Nat).length) =
          (fun _ => true : Nat → Bool) (2 * ([0, 1] : List Nat).length)
      ∧ (fun _ => false : Nat → Bool) (2 * ([0, 1] : List Nat).length) = false)
    ∧ (check_command (Except.error "no such file") (fun _ => Except.ok true)
        (fun n => decide (0 < n)) false [0, 1] = Except.error "no such file"
      ∧ (check_flac_files (fun _ => Except.ok true) (fun _ => false) false
          twoPendingJobSet [0, 1]).result = Except.error "Failed to write job file"
      ∧ (check_flac_files (fun _ => Except.ok true) (fun n => decide (0 < n)) false
          twoPendingJobSet [0, 1]).result =
        (check_flac_files (fun _ => Except.ok true) (fun _ => true) false
          twoPendingJobSet [0, 1]).result
      ∧ (check_flac_files (fun _ => Except.ok true) (fun n => decide (0 < n)) false
          twoPendingJobSet [0, 1]).final =
        (check_flac_files (fun _ => Except.ok true) (fun _ => true) false
          twoPendingJobSet [0, 1]).final) :=
  ⟨⟨by decide, by decide, rfl⟩,
   io_failure_fatal_only_at_load_and_final_save (fun _ => Except.ok true)
     (fun n => decide (0 < n)) (fun _ => true) (fun _ => false) false twoPendingJobSet
     [0, 1] "no such file" (by decide) (by decide) rfl⟩

/-! ## Verifier claims -/

theorem verify_flac_file_opened (md5 : List Nat → List Nat) (s : FlacStream) :
    verify_flac_file md5 (FlacInput.opened s) =
      match s.decode_error with
      | some e => Except.error ("FLAC decoding error: " ++ e)
      | none =>
        match packSamples s.bits_per_sample s.samples with
        | Except.error e => Except.error e
        | Except.ok bytes =>
          if s.md5sum.any (fun b => b != 0) then
            (if md5 bytes = s.md5sum then Except.ok true else Except.ok false)
          else Except.ok true := rfl

theorem sampleBytes_unsupported (bits : Nat) (v : Int) (h8 : bits ≠ 8) (h16 : bits ≠ 16)
    (h24 : bits ≠ 24) (h32 : bits ≠ 32) : sampleBytes bits v = none := by
  unfold sampleBytes
  split <;> simp_all

/-- For a supported bit depth, the code's hashing loop feeds the hasher
exactly the spec's packed byte stream. -/
theorem packSamples_supported (bits : Nat) (samples : List Int)
    (h : bits = 8 ∨ bits = 16 ∨ bits = 24 ∨ bits = 32) :
    packSamples bits samples = Except.ok (specPackedBytes bits samples) := by
  induction samples with
  | nil => rfl
  | cons s rest ih =>
    rcases h with h | h | h | h <;> subst h <;>
      simp [packSamples, sampleBytes, specPackedBytes, specSampleBytes, ih]

/-- C2 counterexample: at an unsupported depth the verifier's message is
"Unsupported bits per sample: <n>", not "unsupported bit depth: <n>"; and
with an empty sample sequence an unsupported depth does not fail at all. -/
theorem unsupported_depth_message_cex :
    (verify_flac_file (fun _ => List.replicate 16 1)
      (FlacInput.opened ⟨List.replicate 16 0, 12, [0], none⟩) =
      Except.error "Unsupported bits per sample: 12"
    ∧ verify_flac_file (fun _ => List.replicate 16 1)
      (FlacInput.opened ⟨List.replicate 16 0, 12, [0], none⟩) ≠
      Except.error "unsupported bit depth: 12")
    ∧ verify_flac_file (fun _ => List.replicate 16 1)
      (FlacInput.opened ⟨List.replicate 16 0, 12, [], none⟩) = Except.ok true := by
  refine ⟨⟨by decide, by decide⟩, by decide⟩

/-- C2 amended: for the supported depths 8/16/24/32 the computed digest is
the MD5 of exactly the spec's byte packing of the decoded samples (8-bit:
one unsigned byte `sample + 128`; 16-bit: two little-endian signed bytes;
24-bit: low 3 bytes of the signed value; 32-bit: four little-endian signed
bytes), compared against a nonzero embedded md5sum; for any other depth
the verifier fails — when at least one sample was decoded — with the
message "Unsupported bits per sample: <n>" (raised in the hashing loop
after the whole stream has been decoded). -/
theorem verify_digest_per_spec (md5 : List Nat → List Nat) (md5sum : List Nat)
    (bits : Nat) (samples : List Int) :
    ((bits = 8 ∨ bits = 16 ∨ bits = 24 ∨ bits = 32) →
      verify_flac_file md5 (FlacInput.opened ⟨md5sum, bits, samples, none⟩) =
        (if md5sum.any (fun b => b != 0) then
          (if md5 (specPackedBytes bits samples) = md5sum then Except.ok true
           else Except.ok false)
         else Except.ok true))
    ∧ (bits ≠ 8 → bits ≠ 16 → bits ≠ 24 → bits ≠ 32 → samples ≠ [] →
      verify_flac_file md5 (FlacInput.opened ⟨md5sum, bits, samples, none⟩) =
        Except.error ("Unsupported bits per sample: " ++ toString bits)) := by
  constructor
  · intro h
    rw [verify_flac_file_opened]
    show (match packSamples bits samples with
      | Except.error e => Except.error e
      | Except.ok bytes =>
        if md5sum.any (fun b => b != 0) then
          (if md5 bytes = md5sum then Except.ok true else Except.ok false)
        else Except.ok true) = _
    rw [packSamples_supported bits samples h]
  · intro h8 h16 h24 h32 hs
    cases samples with
    | nil => exact absurd rfl hs
    | cons s rest =>
      rw [verify_flac_file_opened]
      show (match packSamples bits (s :: rest) with
        | Except.error e => Except.error e
        | Except.ok bytes =>
          if md5sum.any (fun b => b != 0) then
            (if md5 bytes = md5sum then Except.ok true else Except.ok false)
          else Except.ok true) = _
      rw [show packSamples bits (s :: rest) =
          Except.error ("Unsupported bits per sample: " ++ toString bits) by
        rw [packSamples, sampleBytes_unsupported bits s h8 h16 h24 h32]]

theorem verify_digest_per_spec_witness :
    ((16 : Nat) = 8 ∨ (16 : Nat) = 16 ∨ (16 : Nat) = 24 ∨ (16 : Nat) = 32)
    ∧ verify_flac_file (fun _ => List.replicate 16 3)
        (FlacInput.opened ⟨List.replicate 16 3, 16, [-1, 2], none⟩) =
      (if (List.replicate 16 3).any (fun b => b != 0) then
        (if (fun _ => List.replicate 16 3) (specPackedBytes 16 [-1, 2]) =
            List.replicate 16 3 then Except.ok true
         else Except.ok false)
       else Except.ok true) :=
  ⟨by decide,
   (verify_digest_per_spec (fun _ => List.replicate 16 3) (List.replicate 16 3) 16
     [-1, 2]).1 (by decide)⟩

/-- C3: when the embedded md5 signature is the all-zero sentinel, a stream
that decodes without error (and whose digest is computed, i.e. whose
samples pack at its bit depth) verifies as Ok regardless of what digest
the hash function produces. -/
theorem zero_md5_sentinel_verified (md5 : List Nat → List Nat) (s : FlacStream)
    (hz : (s.md5sum.any fun b => b != 0) = false)
    (hd : s.decode_error = none)
    (bytes : List Nat) (hp : packSamples s.bits_per_sample s.samples = Except.ok bytes) :
    verify_flac_file md5 (FlacInput.opened s) = Except.ok true := by
  rw [verify_flac_file_opened, hd]
  show (match packSamples s.bits_per_sample s.samples with
    | Except.error e => Except.error e
    | Except.ok bytes =>
      if s.md5sum.any (fun b => b != 0) then
        (if md5 bytes = s.md5sum then Except.ok true else Except.ok false)
      else Except.ok true) = _
  rw [hp, hz]
  rfl

theorem zero_md5_sentinel_verified_witness :
    (((⟨List.replicate 16 0, 16, [5], none⟩ : FlacStream).md5sum.any
        fun b => b != 0) = false
      ∧ (⟨List.replicate 16 0, 16, [5], none⟩ : FlacStream).decode_error = none
      ∧ packSamples (⟨List.replicate 16 0, 16, [5], none⟩ : FlacStream).bits_per_sample
          (⟨List.replicate 16 0, 16, [5], none⟩ : FlacStream).samples =
        Except.ok [5, 0])
    ∧ verify_flac_file (fun _ => List.replicate 16 7)
        (FlacInput.opened ⟨List.replicate 16 0, 16, [5], none⟩) = Except.ok true :=
  ⟨⟨by decide, rfl, by decide⟩,
   zero_md5_sentinel_verified (fun _ => List.replicate 16 7)
     ⟨List.replicate 16 0, 16, [5], none⟩ (by decide) rfl [5, 0] (by decide)⟩

/-- C4 counterexample: a job whose file decodes fine but whose computed
digest differs from the nonzero embedded one ends Bad with detail
"FLAC verification failed" — which does not contain "mismatch" and is not
"checksum mismatch". -/
theorem mismatch_detail_cex :
    (check_flac_files
      (fun _ => verify_flac_file (fun _ => List.replicate 16 1)
        (FlacInput.opened ⟨List.replicate 16 2, 16, [0], none⟩))
      (fun _ => true) false onePendingJobSet [0]).final.jobs[0]? =
      some ⟨"a.flac", FlacStatus.bad, some "FLAC verification failed"⟩
    ∧ occursIn "mismatch".toList "FLAC verification failed".toList = false
    ∧ "FLAC verification failed" ≠ "checksum mismatch" := by
  refine ⟨by decide, by decide, by decide⟩

/-- C4 amended: a file that decodes without error but whose computed
digest differs byte-for-byte from the nonzero embedded md5sum yields
verifier outcome Ok(false), and the engine then ends that job in status
Bad (Corrupt) with detail "FLAC verification failed" — a fixed message
that does not contain the substring "mismatch". -/
theorem checksum_mismatch_marks_bad (md5 : List Nat → List Nat) (md5sum : List Nat)
    (bits : Nat) (samples : List Int) (bytes : List Nat)
    (hpack : packSamples bits samples = Except.ok bytes)
    (hnz : (md5sum.any fun b => b != 0) = true)
    (hdiff : md5 bytes ≠ md5sum)
    (outcome : String → CheckResult) (saveOk : Nat → Bool) (co : Bool)
    (jf : JobFile) (order : List Nat) (hperm : order.Perm (files_to_check jf.jobs))
    (i : Nat) (job : FlacJob) (hget : jf.jobs[i]? = some job)
    (helig : eligible job.status = true)
    (houtcome : outcome job.path =
      verify_flac_file md5 (FlacInput.opened ⟨md5sum, bits, samples, none⟩)) :
    outcome job.path = Except.ok false
    ∧ (check_flac_files outcome saveOk co jf order).final.jobs[i]? =
      some ⟨job.path, FlacStatus.bad, some "FLAC verification failed"⟩
    ∧ occursIn "mismatch".toList "FLAC verification failed".toList = false := by
  have hverify : verify_flac_file md5 (FlacInput.opened ⟨md5sum, bits, samples, none⟩) =
      Except.ok false := by
    rw [verify_flac_file_opened]
    show (match packSamples bits samples with
      | Except.error e => Except.error e
      | Except.ok bytes =>
        if md5sum.any (fun b => b != 0) then
          (if md5 bytes = md5sum then Except.ok true else Except.ok false)
        else Except.ok true) = _
    rw [hpack, hnz]
    show (if md5 bytes = md5sum then Except.ok true else Except.ok false) = _
    rw [if_neg hdiff]
  have houtc : outcome job.path = Except.ok false := houtcome.trans hverify
  refine ⟨houtc, ?_, by decide⟩
  have hmem : i ∈ files_to_check jf.jobs :=
    (mem_files_to_check jf.jobs i).mpr ⟨job, hget, helig⟩
  rw [check_final_jobs_getElem? outcome saveOk co jf order hperm i, if_pos hmem, hget]
  show some (terminalJob outcome job) = _
  rw [terminalJob_eq, houtc]

theorem checksum_mismatch_marks_bad_witness :
    (packSamples 16 [0] = Except.ok [0, 0]
      ∧ ((List.replicate 16 2).any fun b => b != 0) = true
      ∧ (fun _ => List.replicate 16 1 : List Nat → List Nat) [0, 0] ≠ List.replicate 16 2
      ∧ ([0] : List Nat).Perm (files_to_check onePendingJobSet.jobs)
      ∧ onePendingJobSet.jobs[0]? = some ⟨"a.flac", FlacStatus.toBeChecked, none⟩
      ∧ eligible (⟨"a.flac", FlacStatus.toBeChecked, none⟩ : FlacJob).status = true)
    ∧ ((fun _ => verify_flac_file (fun _ => List.replicate 16 1)
          (FlacInput.opened ⟨List.replicate 16 2, 16, [0], none⟩) : String → CheckResult)
            (⟨"a.flac", FlacStatus.toBeChecked, none⟩ : FlacJob).path = Except.ok false
      ∧ (check_flac_files
          (fun _ => verify_flac_file (fun _ => List.replicate 16 1)
            (FlacInput.opened ⟨List.replicate 16 2, 16, [0], none⟩))
          (fun _ => true) false onePendingJobSet [0]).final.jobs[0]? =
        some ⟨(⟨"a.flac", FlacStatus.toBeChecked, none⟩ : FlacJob).path,
          FlacStatus.bad, some "FLAC verification failed"⟩
      ∧ occursIn "mismatch".toList "FLAC verification failed".toList = false) :=
  ⟨⟨by decide, by decide, by decide, by decide, by decide, by decide⟩,
   checksum_mismatch_marks_bad (fun _ => List.replicate 16 1) (List.replicate 16 2) 16
     [0] [0, 0] (by decide) (by decide) (by decide)
     (fun _ => verify_flac_file (fun _ => List.replicate 16 1)
       (FlacInput.opened ⟨List.replicate 16 2, 16, [0], none⟩))
     (fun _ => true) false onePendingJobSet [0] (by decide) 0
     ⟨"a.flac", FlacStatus.toBeChecked, none⟩ (by decide) (by decide) rfl⟩

end Checkflac
